import Mathlib

/-!
Shallow embedding of the stock-mutation and approval-workflow core of the
inventory backend (`storage.ts`, `schema.ts`, route handlers).

The relational store is modelled as a `State` record of lists of rows; each
`DatabaseStorage` method becomes a pure function on `State`.  Columns that no
claim observes (names, prices, timestamps, payment fields, …) are omitted;
ids are `Int` (Postgres `serial` values, tracked by `next…Id` counters),
JSON numbers are `Int`, nullable columns are `Option`.
-/

/-- One row of the `products` table (`schema.ts` lines 51–65).
`minStock` is nullable in the schema (no `.notNull()`), hence `Option`. -/
structure Product where
  id : Int
  stock : Int
  minStock : Option Int
  isActive : Bool
  deriving Repr, DecidableEq

/-- One element of a transaction's `items` jsonb array
(`{productId, quantity, …}`). -/
structure Item where
  productId : Int
  quantity : Int
  deriving Repr, DecidableEq

/-- One row of the `purchases` or `sales` table: only the primary key and the
`items` jsonb column are observed by the claims. -/
structure Txn where
  id : Int
  items : List Item
  deriving Repr, DecidableEq

/-- One row of the `invoice_templates` table (`schema.ts` lines 219–226). -/
structure InvoiceTemplate where
  id : Int
  isDefault : Bool
  deriving Repr, DecidableEq

/-- `Partial<InsertInvoiceTemplate>`: in a JS partial an absent key is
`none`. The insert schema omits `id`, so a partial cannot change a row id. -/
structure InsertInvoiceTemplate where
  isDefault : Option Bool
  deriving Repr, DecidableEq

/-- One row of the `approval_requests` table (`schema.ts` lines 235–244). -/
structure ApprovalRequest where
  id : Int
  entityType : String
  entityId : Int
  requestedBy : Int
  status : String
  deriving Repr, DecidableEq

/-- The caller-visible argument of `createApprovalRequest`.  TypeScript types
are erased at runtime, so a caller may attach a `status` key; the zod insert
schema and the storage layer must both neutralise it (claim C6). -/
structure RawApprovalInput where
  entityType : String
  entityId : Int
  requestedBy : Int
  status : Option String
  deriving Repr, DecidableEq

/-- The parsed output of `insertApprovalRequestSchema`
(`schema.ts` lines 246–251): `status` is omitted from the accepted keys. -/
structure InsertApprovalRequest where
  entityType : String
  entityId : Int
  requestedBy : Int
  deriving Repr, DecidableEq

/-- `Partial<ApprovalRequest>` as sent by the decide route
(`PUT /approval-requests/:id` passes `{status, notes}`); only `status`
is observed by any claim. -/
structure ApprovalUpdate where
  status : Option String
  deriving Repr, DecidableEq

/-- A partner-entity row (`vendors`, `distributors`, `retailers`,
`billed_entities` all share the observed shape `{id, isApproved}`). -/
structure Entity where
  id : Int
  isApproved : Bool
  deriving Repr, DecidableEq

/-- The relational store: one list per table plus the `serial` counters. -/
structure State where
  products : List Product
  purchases : List Txn
  sales : List Txn
  templates : List InvoiceTemplate
  requests : List ApprovalRequest
  vendors : List Entity
  distributors : List Entity
  retailers : List Entity
  billedEntities : List Entity
  nextPurchaseId : Int
  nextSaleId : Int
  nextTemplateId : Int
  nextRequestId : Int
  deriving Repr, DecidableEq

/-- `updateProductStock(id, change)` (`storage.ts` 227–236):
`UPDATE products SET stock = stock + change WHERE id = ?`
as an in-database increment applied to every matching row. -/
def updateProductStock (pid : Int) (change : Int) (ps : List Product) : List Product :=
  ps.map fun p => if p.id = pid then { p with stock := p.stock + change } else p

/-- The per-item loop shared by createPurchase / createSale / deletePurchase /
deleteSale (`storage.ts` 465–471, 492–498, 523–529, 550–556): for each item,
`if (item.productId && item.quantity)` — both JS-truthy, i.e. nonzero —
apply `sign * quantity` via `updateProductStock`. `sign` is `1` where the
source passes `item.quantity` and `-1` where it passes `-item.quantity`. -/
def applyItems (sign : Int) (items : List Item) (ps : List Product) : List Product :=
  items.foldl
    (fun acc it =>
      if it.productId ≠ 0 ∧ it.quantity ≠ 0 then
        updateProductStock it.productId (sign * it.quantity) acc
      else acc)
    ps

/-- `createPurchase` (`storage.ts` 456–474): insert the row (serial id), then
walk its items adding each quantity to the referenced product's stock. -/
def createPurchase (items : List Item) (s : State) : Txn × State :=
  let row : Txn := { id := s.nextPurchaseId, items := items }
  (row,
    { s with
      purchases := s.purchases ++ [row]
      nextPurchaseId := s.nextPurchaseId + 1
      products := applyItems 1 items s.products })

/-- `createSale` (`storage.ts` 514–532): insert the row, then walk its items
subtracting each quantity from the referenced product's stock. -/
def createSale (items : List Item) (s : State) : Txn × State :=
  let row : Txn := { id := s.nextSaleId, items := items }
  (row,
    { s with
      sales := s.sales ++ [row]
      nextSaleId := s.nextSaleId + 1
      products := applyItems (-1) items s.products })

/-- `deletePurchase` (`storage.ts` 487–502): select the row first; if absent
return `false` and change nothing; otherwise revert its stock deltas and then
`DELETE FROM purchases WHERE id = ?`. -/
def deletePurchase (tid : Int) (s : State) : Bool × State :=
  match s.purchases.find? (fun t => t.id = tid) with
  | none => (false, s)
  | some t =>
    (true,
      { s with
        products := applyItems (-1) t.items s.products
        purchases := s.purchases.filter (fun x => ¬ x.id = tid) })

/-- `deleteSale` (`storage.ts` 545–560): symmetric to `deletePurchase`,
reverting with positive sign. -/
def deleteSale (tid : Int) (s : State) : Bool × State :=
  match s.sales.find? (fun t => t.id = tid) with
  | none => (false, s)
  | some t =>
    (true,
      { s with
        products := applyItems 1 t.items s.products
        sales := s.sales.filter (fun x => ¬ x.id = tid) })

/-- The operations claim C1 quantifies over. -/
inductive StockOp where
  | createPurchase (items : List Item)
  | createSale (items : List Item)
  | deletePurchase (tid : Int)
  | deleteSale (tid : Int)
  deriving Repr, DecidableEq

/-- Apply one stock operation (discarding the returned row / boolean). -/
def stepStock (s : State) (op : StockOp) : State :=
  match op with
  | .createPurchase items => (createPurchase items s).2
  | .createSale items => (createSale items s).2
  | .deletePurchase tid => (deletePurchase tid s).2
  | .deleteSale tid => (deleteSale tid s).2

/-- Replay a sequence of stock operations left to right. -/
def runStockOps (ops : List StockOp) (s : State) : State :=
  ops.foldl stepStock s

/-- Stock of the product with id `pid` (the first matching row), as a SELECT. -/
def getStock (s : State) (pid : Int) : Option Int :=
  (s.products.find? (fun p => p.id = pid)).map Product.stock

/-- Sum of the quantities of the line items of `items` referencing product
`pid` (the claim-language sum: every item with `productId = pid` counts). -/
def itemSum (pid : Int) (items : List Item) : Int :=
  (items.map fun it => if it.productId = pid then it.quantity else 0).sum

/-- Sum of `itemSum` over a transaction table. -/
def txnSum (pid : Int) (ts : List Txn) : Int :=
  (ts.map fun t => itemSum pid t.items).sum

/-- Net effect on product `pid` of all currently-existing transactions:
purchases add, sales subtract. -/
def netSum (pid : Int) (s : State) : Int :=
  txnSum pid s.purchases - txnSum pid s.sales

/-- The SQL predicate `stock <= min_stock`: not satisfied when `min_stock`
is NULL. -/
def belowMinStock (p : Product) : Bool :=
  match p.minStock with
  | some m => p.stock ≤ m
  | none => false

/-- `getLowStockProducts(threshold?)` (`storage.ts` 205–225).  The source
branches on `if (threshold)`, which is JS-truthiness: it selects the
threshold query only when `threshold` is present AND nonzero; an absent or
zero threshold runs the `stock <= min_stock` query. -/
def getLowStockProducts (threshold : Option Int) (s : State) : List Product :=
  match threshold with
  | some t =>
    if t ≠ 0 then
      s.products.filter fun p => p.isActive ∧ p.stock ≤ t
    else
      s.products.filter fun p => p.isActive ∧ belowMinStock p
  | none =>
    s.products.filter fun p => p.isActive ∧ belowMinStock p

/-- The spec's reading of `getLowStockProducts` (claim C8, for comparison):
"if threshold given, returns active products with stock ≤ threshold; if
omitted, active products whose stock is ≤ their own minStock field". -/
def getLowStockProductsClaim (threshold : Option Int) (s : State) : List Product :=
  match threshold with
  | some t => s.products.filter fun p => p.isActive ∧ p.stock ≤ t
  | none => s.products.filter fun p => p.isActive ∧ belowMinStock p

/-- The shared clear step of the exclusivity rule:
`UPDATE invoice_templates SET is_default = false WHERE is_default = true`. -/
def clearDefaults (ts : List InvoiceTemplate) : List InvoiceTemplate :=
  ts.map fun t => if t.isDefault then { t with isDefault := false } else t

/-- `createInvoiceTemplate` (`storage.ts` 579–597): coerce the incoming
`isDefault` with `!!`; if true, first clear every current default; then
insert the row with the coerced flag. -/
def createInvoiceTemplate (tpl : InsertInvoiceTemplate) (s : State) :
    InvoiceTemplate × State :=
  let isDef := tpl.isDefault = some true
  let cleared := if isDef then clearDefaults s.templates else s.templates
  let row : InvoiceTemplate := { id := s.nextTemplateId, isDefault := isDef }
  (row,
    { s with
      templates := cleared ++ [row]
      nextTemplateId := s.nextTemplateId + 1 })

/-- Merge a `Partial<InsertInvoiceTemplate>` into a row (drizzle `.set` with
spread: a key present in the partial overwrites, an absent key is kept; the
insert schema has no `id` key). -/
def mergeTemplate (t : InvoiceTemplate) (upd : InsertInvoiceTemplate) : InvoiceTemplate :=
  { t with isDefault := upd.isDefault.getD t.isDefault }

/-- `updateInvoiceTemplate` (`storage.ts` 599–617): coerce `isDefault` with
`!!`; if true, clear every current default; then `UPDATE … WHERE id = ?`
merging the partial, returning the updated row (absent when no row matches). -/
def updateInvoiceTemplate (tid : Int) (upd : InsertInvoiceTemplate) (s : State) :
    Option InvoiceTemplate × State :=
  let isDef := upd.isDefault = some true
  let cleared := if isDef then clearDefaults s.templates else s.templates
  let updated := cleared.map fun t => if t.id = tid then mergeTemplate t upd else t
  (updated.find? (fun t => t.id = tid), { s with templates := updated })

/-- `getDefaultInvoiceTemplate` (`storage.ts` 619–622). -/
def getDefaultInvoiceTemplate (s : State) : Option InvoiceTemplate :=
  s.templates.find? (fun t => t.isDefault)

/-- Number of rows of a template table holding `isDefault = true`. -/
def countDefaultRows (ts : List InvoiceTemplate) : Nat :=
  (ts.filter fun t => t.isDefault).length

/-- Number of rows currently holding `isDefault = true`. -/
def countDefaults (s : State) : Nat :=
  countDefaultRows s.templates

/-- The create/update operations claim C2 quantifies over. -/
inductive TemplateOp where
  | create (tpl : InsertInvoiceTemplate)
  | update (tid : Int) (upd : InsertInvoiceTemplate)
  deriving Repr, DecidableEq

/-- Apply one template operation. -/
def stepTemplate (s : State) (op : TemplateOp) : State :=
  match op with
  | .create tpl => (createInvoiceTemplate tpl s).2
  | .update tid upd => (updateInvoiceTemplate tid upd s).2

/-- Replay a sequence of template operations left to right. -/
def runTemplateOps (ops : List TemplateOp) (s : State) : State :=
  ops.foldl stepTemplate s

/-- `insertApprovalRequestSchema.parse` (`schema.ts` 246–251): the schema is
`createInsertSchema(approvalRequests).omit({id, createdAt, updatedAt,
status})`, and zod strips keys not in the schema, so a caller-supplied
`status` never survives parsing. -/
def insertApprovalRequestSchemaParse (raw : RawApprovalInput) : InsertApprovalRequest :=
  { entityType := raw.entityType
    entityId := raw.entityId
    requestedBy := raw.requestedBy }

/-- `createApprovalRequest` (`storage.ts` 634–643): insert
`{...insertRequest, status: "pending", createdAt, updatedAt}`.  The `status`
literal comes after the spread in the object literal, so it overwrites any
`status` the caller's record carried. -/
def createApprovalRequest (req : RawApprovalInput) (s : State) :
    ApprovalRequest × State :=
  let row : ApprovalRequest :=
    { id := s.nextRequestId
      entityType := req.entityType
      entityId := req.entityId
      requestedBy := req.requestedBy
      status := "pending" }
  (row,
    { s with
      requests := s.requests ++ [row]
      nextRequestId := s.nextRequestId + 1 })

/-- Merge a `Partial<ApprovalRequest>` into a row (drizzle `.set` spread). -/
def mergeRequest (r : ApprovalRequest) (upd : ApprovalUpdate) : ApprovalRequest :=
  { r with status := upd.status.getD r.status }

/-- The `switch (entityType)` of `updateApprovalRequest` (`storage.ts`
660–681): set `isApproved = true` on the matching row of the table named by
the tag; a tag outside the four cases falls through the switch untouched. -/
def approveEntity (entityType : String) (entityId : Int) (s : State) : State :=
  match entityType with
  | "vendor" =>
    { s with vendors := s.vendors.map fun v =>
        if v.id = entityId then { v with isApproved := true } else v }
  | "distributor" =>
    { s with distributors := s.distributors.map fun v =>
        if v.id = entityId then { v with isApproved := true } else v }
  | "retailer" =>
    { s with retailers := s.retailers.map fun v =>
        if v.id = entityId then { v with isApproved := true } else v }
  | "billedEntity" =>
    { s with billedEntities := s.billedEntities.map fun v =>
        if v.id = entityId then { v with isApproved := true } else v }
  | _ => s

/-- `updateApprovalRequest` (`storage.ts` 645–686): `UPDATE … WHERE id = ?`
merging the partial and returning the updated row; then, when a row was
returned and the partial's status is "approved" or "rejected", run the
side-effect block — which flips the entity flag only in the "approved"
case. -/
def updateApprovalRequest (rid : Int) (upd : ApprovalUpdate) (s : State) :
    Option ApprovalRequest × State :=
  let updated := s.requests.map fun r => if r.id = rid then mergeRequest r upd else r
  let req? := updated.find? (fun r => r.id = rid)
  let s₁ := { s with requests := updated }
  match req? with
  | none => (none, s₁)
  | some req =>
    if upd.status = some "approved" ∨ upd.status = some "rejected" then
      if upd.status = some "approved" then
        (some req, approveEntity req.entityType req.entityId s₁)
      else (some req, s₁)
    else (some req, s₁)

/-! ### Lemmas about the stock ledger -/

/-- Sum of the quantities the item loop actually applies for product `pid`:
items failing the JS-truthiness guard are skipped. -/
def guardedSum (pid : Int) (items : List Item) : Int :=
  (items.map fun it =>
    if it.productId = pid ∧ it.productId ≠ 0 ∧ it.quantity ≠ 0 then it.quantity else 0).sum

lemma guardedSum_nil (pid : Int) : guardedSum pid [] = 0 := rfl

lemma guardedSum_cons (pid : Int) (it : Item) (its : List Item) :
    guardedSum pid (it :: its) =
      (if it.productId = pid ∧ it.productId ≠ 0 ∧ it.quantity ≠ 0 then it.quantity else 0)
        + guardedSum pid its := by
  simp [guardedSum]

lemma itemSum_cons (pid : Int) (it : Item) (its : List Item) :
    itemSum pid (it :: its) =
      (if it.productId = pid then it.quantity else 0) + itemSum pid its := by
  simp [itemSum]

/-- For a nonzero product id the guarded sum is the plain claim-language sum:
a zero-quantity item contributes nothing either way. -/
lemma guardedSum_eq_itemSum (pid : Int) (hpid : pid ≠ 0) (items : List Item) :
    guardedSum pid items = itemSum pid items := by
  induction items with
  | nil => rfl
  | cons it its ih =>
    rw [guardedSum_cons, itemSum_cons, ih]
    congr 1
    by_cases h1 : it.productId = pid
    · by_cases h2 : it.quantity = 0
      · have hcond : ¬ (it.productId = pid ∧ it.productId ≠ 0 ∧ it.quantity ≠ 0) := by
          intro h
          exact h.2.2 h2
        rw [if_neg hcond, if_pos h1, h2]
      · have hcond : it.productId = pid ∧ it.productId ≠ 0 ∧ it.quantity ≠ 0 :=
          ⟨h1, h1 ▸ hpid, h2⟩
        rw [if_pos hcond, if_pos h1]
    · have hcond : ¬ (it.productId = pid ∧ it.productId ≠ 0 ∧ it.quantity ≠ 0) := by
        intro h
        exact h1 h.1
      rw [if_neg hcond, if_neg h1]

/-- `applyItems` acts elementwise: every product's stock moves by
`sign * guardedSum` of its own id, and nothing else changes. -/
lemma applyItems_eq_map (sign : Int) (items : List Item) (ps : List Product) :
    applyItems sign items ps =
      ps.map fun p => { p with stock := p.stock + sign * guardedSum p.id items } := by
  induction items generalizing ps with
  | nil =>
    have h : (fun p : Product => { p with stock := p.stock + sign * guardedSum p.id [] })
        = fun p => p := by
      funext p
      show { p with stock := p.stock + sign * 0 } = p
      rw [Int.mul_zero, Int.add_zero]
    rw [h, List.map_id']
    rfl
  | cons it its ih =>
    show applyItems sign its
        (if it.productId ≠ 0 ∧ it.quantity ≠ 0 then
          updateProductStock it.productId (sign * it.quantity) ps
        else ps) = _
    by_cases hc : it.productId ≠ 0 ∧ it.quantity ≠ 0
    · rw [if_pos hc, ih, updateProductStock, List.map_map]
      refine List.map_congr_left fun p _ => ?_
      by_cases hp : p.id = it.productId
      · simp only [Function.comp_apply, if_pos hp, guardedSum_cons]
        have hcond : it.productId = p.id ∧ it.productId ≠ 0 ∧ it.quantity ≠ 0 :=
          ⟨hp.symm, hc⟩
        rw [if_pos hcond]
        show ({ p with
            stock := p.stock + sign * it.quantity + sign * guardedSum p.id its } : Product)
          = { p with stock := p.stock + sign * (it.quantity + guardedSum p.id its) }
        have harith : p.stock + sign * it.quantity + sign * guardedSum p.id its
            = p.stock + sign * (it.quantity + guardedSum p.id its) := by ring
        rw [harith]
      · simp only [Function.comp_apply, if_neg hp, guardedSum_cons]
        have hcond : ¬ (it.productId = p.id ∧ it.productId ≠ 0 ∧ it.quantity ≠ 0) := by
          intro h
          exact hp h.1.symm
        rw [if_neg hcond, Int.zero_add]
    · rw [if_neg hc, ih]
      refine List.map_congr_left fun p _ => ?_
      rw [guardedSum_cons]
      have hcond : ¬ (it.productId = p.id ∧ it.productId ≠ 0 ∧ it.quantity ≠ 0) := by
        intro h
        exact hc h.2
      rw [if_neg hcond, Int.zero_add]

/-- `find?` commutes with a map that does not move the searched field. -/
lemma find?_map_of_id_eq (ps : List Product) (pid : Int) (f : Product → Product)
    (hf : ∀ p, (f p).id = p.id) :
    (ps.map f).find? (fun p => p.id = pid) =
      (ps.find? (fun p => p.id = pid)).map f := by
  induction ps with
  | nil => rfl
  | cons p ps ih =>
    by_cases h : p.id = pid
    · simp [List.find?_cons, hf, h]
    · simp [List.find?_cons, hf, h, ih]

/-- The stock read back for `pid` after the item loop is the old stock plus
`sign * guardedSum pid`. -/
lemma stockOf_applyItems (sign : Int) (items : List Item) (ps : List Product) (pid : Int) :
    ((applyItems sign items ps).find? fun p => p.id = pid).map Product.stock
      = (ps.find? fun p => p.id = pid).map
          fun p => p.stock + sign * guardedSum pid items := by
  rw [applyItems_eq_map, find?_map_of_id_eq ps pid
    (fun p => { p with stock := p.stock + sign * guardedSum p.id items }) (fun p => rfl)]
  cases hfind : ps.find? (fun p => p.id = pid) with
  | none => rfl
  | some p =>
    have hp : p.id = pid := by
      have := List.find?_some hfind
      simpa using this
    simp only [Option.map_some']
    rw [hp]

lemma txnSum_nil (pid : Int) : txnSum pid [] = 0 := rfl

lemma txnSum_cons (pid : Int) (t : Txn) (ts : List Txn) :
    txnSum pid (t :: ts) = itemSum pid t.items + txnSum pid ts := by
  simp [txnSum]

lemma txnSum_append_singleton (pid : Int) (ts : List Txn) (t : Txn) :
    txnSum pid (ts ++ [t]) = txnSum pid ts + itemSum pid t.items := by
  simp [txnSum]

/-- Deleting by primary key from a table with distinct ids removes exactly
the row `find?` located. -/
lemma txnSum_filter_ne (pid tid : Int) (l : List Txn)
    (hnd : (l.map Txn.id).Nodup) (t : Txn)
    (hf : l.find? (fun x => x.id = tid) = some t) :
    txnSum pid (l.filter fun x => ¬ x.id = tid)
      = txnSum pid l - itemSum pid t.items := by
  induction l with
  | nil => simp at hf
  | cons h hs ih =>
    rw [List.map_cons, List.nodup_cons] at hnd
    by_cases hh : h.id = tid
    · have hth : t = h := by
        rw [List.find?_cons_of_pos _ (by simpa using hh)] at hf
        exact (Option.some_inj.mp hf).symm
      subst hth
      have hnone : ∀ x ∈ hs, ¬ x.id = tid := by
        intro x hx hxid
        exact hnd.1 (by
          rw [← hxid] at hh
          rw [hh]
          exact List.mem_map_of_mem Txn.id hx)
      have hfilter : hs.filter (fun x => ¬ x.id = tid) = hs := by
        apply List.filter_eq_self.mpr
        intro a ha
        simpa using hnone a ha
      have hdrop : (t :: hs).filter (fun x => ¬ x.id = tid) = hs := by
        rw [List.filter_cons_of_neg (by simpa using hh), hfilter]
      rw [hdrop, txnSum_cons]
      ring
    · rw [List.find?_cons_of_neg _ (by simpa using hh)] at hf
      rw [List.filter_cons_of_pos (by simpa using hh), txnSum_cons,
        ih hnd.2 hf, txnSum_cons]
      ring

/-- Well-formedness the serial primary keys give every reachable database
state: transaction ids are below the next serial value and pairwise
distinct. -/
def StockInv (s : State) : Prop :=
  (∀ t ∈ s.purchases, t.id < s.nextPurchaseId) ∧ (s.purchases.map Txn.id).Nodup ∧
  (∀ t ∈ s.sales, t.id < s.nextSaleId) ∧ (s.sales.map Txn.id).Nodup

/-- Appending a row carrying the next serial id preserves id distinctness. -/
lemma nodup_append_serial (l : List Txn) (n : Int) (its : List Item)
    (hb : ∀ t ∈ l, t.id < n) (hnd : (l.map Txn.id).Nodup) :
    ((l ++ [({ id := n, items := its } : Txn)]).map Txn.id).Nodup := by
  rw [List.map_append]
  refine List.nodup_append.mpr ⟨hnd, List.nodup_singleton _, ?_⟩
  intro a ha hb'
  simp only [List.map_cons, List.map_nil, List.mem_singleton] at hb'
  obtain ⟨t, ht, rfl⟩ := List.mem_map.mp ha
  have := hb t ht
  omega

/-- Every stock operation preserves the serial-id well-formedness. -/
lemma stockInv_step (s : State) (op : StockOp) (h : StockInv s) :
    StockInv (stepStock s op) := by
  obtain ⟨hpb, hpn, hsb, hsn⟩ := h
  cases op with
  | createPurchase items =>
    refine ⟨?_, ?_, hsb, hsn⟩
    · intro t ht
      simp only [stepStock, createPurchase, List.mem_append, List.mem_singleton] at ht
      show t.id < s.nextPurchaseId + 1
      rcases ht with ht | ht
      · have := hpb t ht
        omega
      · subst ht
        show s.nextPurchaseId < s.nextPurchaseId + 1
        omega
    · exact nodup_append_serial s.purchases s.nextPurchaseId items hpb hpn
  | createSale items =>
    refine ⟨hpb, hpn, ?_, ?_⟩
    · intro t ht
      simp only [stepStock, createSale, List.mem_append, List.mem_singleton] at ht
      show t.id < s.nextSaleId + 1
      rcases ht with ht | ht
      · have := hsb t ht
        omega
      · subst ht
        show s.nextSaleId < s.nextSaleId + 1
        omega
    · exact nodup_append_serial s.sales s.nextSaleId items hsb hsn
  | deletePurchase tid =>
    show StockInv (deletePurchase tid s).2
    rw [deletePurchase]
    cases hf : s.purchases.find? (fun x => x.id = tid) with
    | none => exact ⟨hpb, hpn, hsb, hsn⟩
    | some t =>
      refine ⟨?_, ?_, hsb, hsn⟩
      · intro x hx
        exact hpb x (List.mem_of_mem_filter hx)
      · exact hpn.sublist ((List.filter_sublist _).map Txn.id)
  | deleteSale tid =>
    show StockInv (deleteSale tid s).2
    rw [deleteSale]
    cases hf : s.sales.find? (fun x => x.id = tid) with
    | none => exact ⟨hpb, hpn, hsb, hsn⟩
    | some t =>
      refine ⟨hpb, hpn, ?_, ?_⟩
      · intro x hx
        exact hsb x (List.mem_of_mem_filter hx)
      · exact hsn.sublist ((List.filter_sublist _).map Txn.id)

/-- One stock operation moves the observed stock of product `pid` by exactly
the change in the net transaction sum for `pid`. -/
lemma getStock_stepStock (s : State) (op : StockOp) (hInv : StockInv s)
    (pid : Int) (hpid : pid ≠ 0) (v : Int) (hv : getStock s pid = some v) :
    getStock (stepStock s op) pid
      = some (v + (netSum pid (stepStock s op) - netSum pid s)) := by
  obtain ⟨hpb, hpn, hsb, hsn⟩ := hInv
  cases op with
  | createPurchase items =>
    show ((applyItems 1 items s.products).find? fun p => p.id = pid).map Product.stock
      = some (v + _)
    rw [stockOf_applyItems]
    rw [getStock] at hv
    cases hf : s.products.find? (fun p => p.id = pid) with
    | none =>
      rw [hf] at hv
      simp at hv
    | some p =>
      rw [hf] at hv
      simp only [Option.map_some'] at hv ⊢
      have hpv : p.stock = v := Option.some_inj.mp hv
      congr 1
      have hnet : netSum pid (stepStock s (.createPurchase items)) - netSum pid s
          = itemSum pid items := by
        show netSum pid { s with
          purchases := s.purchases ++ [{ id := s.nextPurchaseId, items := items }]
          nextPurchaseId := s.nextPurchaseId + 1
          products := applyItems 1 items s.products } - netSum pid s = _
        rw [netSum, netSum]
        show txnSum pid (s.purchases ++ [{ id := s.nextPurchaseId, items := items }])
          - txnSum pid s.sales - (txnSum pid s.purchases - txnSum pid s.sales) = _
        rw [txnSum_append_singleton]
        ring
      rw [hnet, guardedSum_eq_itemSum pid hpid, hpv]
      ring
  | createSale items =>
    show ((applyItems (-1) items s.products).find? fun p => p.id = pid).map Product.stock
      = some (v + _)
    rw [stockOf_applyItems]
    rw [getStock] at hv
    cases hf : s.products.find? (fun p => p.id = pid) with
    | none =>
      rw [hf] at hv
      simp at hv
    | some p =>
      rw [hf] at hv
      simp only [Option.map_some'] at hv ⊢
      have hpv : p.stock = v := Option.some_inj.mp hv
      congr 1
      have hnet : netSum pid (stepStock s (.createSale items)) - netSum pid s
          = -itemSum pid items := by
        show netSum pid { s with
          sales := s.sales ++ [{ id := s.nextSaleId, items := items }]
          nextSaleId := s.nextSaleId + 1
          products := applyItems (-1) items s.products } - netSum pid s = _
        rw [netSum, netSum]
        show txnSum pid s.purchases
          - txnSum pid (s.sales ++ [{ id := s.nextSaleId, items := items }])
          - (txnSum pid s.purchases - txnSum pid s.sales) = _
        rw [txnSum_append_singleton]
        ring
      rw [hnet, guardedSum_eq_itemSum pid hpid, hpv]
      ring
  | deletePurchase tid =>
    show getStock (deletePurchase tid s).2 pid = some (v + (netSum pid (deletePurchase tid s).2 - netSum pid s))
    rw [deletePurchase]
    cases hf : s.purchases.find? (fun x => x.id = tid) with
    | none =>
      rw [hv]
      congr 1
      ring
    | some t =>
      show ((applyItems (-1) t.items s.products).find? fun p => p.id = pid).map Product.stock
        = some (v + _)
      rw [stockOf_applyItems]
      rw [getStock] at hv
      cases hfp : s.products.find? (fun p => p.id = pid) with
      | none =>
        rw [hfp] at hv
        simp at hv
      | some p =>
        rw [hfp] at hv
        simp only [Option.map_some'] at hv ⊢
        have hpv : p.stock = v := Option.some_inj.mp hv
        congr 1
        have hnet : netSum pid { s with
            products := applyItems (-1) t.items s.products
            purchases := s.purchases.filter (fun x => ¬ x.id = tid) } - netSum pid s
            = -itemSum pid t.items := by
          rw [netSum, netSum]
          show txnSum pid (s.purchases.filter (fun x => ¬ x.id = tid))
            - txnSum pid s.sales - (txnSum pid s.purchases - txnSum pid s.sales) = _
          rw [txnSum_filter_ne pid tid s.purchases hpn t hf]
          ring
        rw [hnet, guardedSum_eq_itemSum pid hpid, hpv]
        ring
  | deleteSale tid =>
    show getStock (deleteSale tid s).2 pid = some (v + (netSum pid (deleteSale tid s).2 - netSum pid s))
    rw [deleteSale]
    cases hf : s.sales.find? (fun x => x.id = tid) with
    | none =>
      rw [hv]
      congr 1
      ring
    | some t =>
      show ((applyItems 1 t.items s.products).find? fun p => p.id = pid).map Product.stock
        = some (v + _)
      rw [stockOf_applyItems]
      rw [getStock] at hv
      cases hfp : s.products.find? (fun p => p.id = pid) with
      | none =>
        rw [hfp] at hv
        simp at hv
      | some p =>
        rw [hfp] at hv
        simp only [Option.map_some'] at hv ⊢
        have hpv : p.stock = v := Option.some_inj.mp hv
        congr 1
        have hnet : netSum pid { s with
            products := applyItems 1 t.items s.products
            sales := s.sales.filter (fun x => ¬ x.id = tid) } - netSum pid s
            = itemSum pid t.items := by
          rw [netSum, netSum]
          show txnSum pid s.purchases
            - txnSum pid (s.sales.filter (fun x => ¬ x.id = tid))
            - (txnSum pid s.purchases - txnSum pid s.sales) = _
          rw [txnSum_filter_ne pid tid s.sales hsn t hf]
          ring
        rw [hnet, guardedSum_eq_itemSum pid hpid, hpv]
        ring

/-- Replaying any operation sequence moves each product's stock by exactly
the change in its net transaction sum. -/
lemma getStock_runStockOps (ops : List StockOp) (s : State) (hInv : StockInv s)
    (pid : Int) (hpid : pid ≠ 0) (v : Int) (hv : getStock s pid = some v) :
    getStock (runStockOps ops s) pid
      = some (v + (netSum pid (runStockOps ops s) - netSum pid s)) := by
  induction ops generalizing s v with
  | nil =>
    rw [runStockOps, List.foldl_nil, hv]
    congr 1
    ring
  | cons op ops ih =>
    have hstep := getStock_stepStock s op ⟨hInv.1, hInv.2.1, hInv.2.2.1, hInv.2.2.2⟩
      pid hpid v hv
    have hInv' := stockInv_step s op hInv
    have := ih (stepStock s op) hInv'
      (v + (netSum pid (stepStock s op) - netSum pid s)) hstep
    rw [runStockOps, List.foldl_cons]
    rw [runStockOps] at this
    rw [this]
    congr 1
    ring

/-- Re-applying the opposite signed delta of every item cancels exactly. -/
lemma applyItems_neg_cancel (sign : Int) (items : List Item) (ps : List Product) :
    applyItems sign items (applyItems (-sign) items ps) = ps := by
  rw [applyItems_eq_map, applyItems_eq_map, List.map_map]
  have hpt : ∀ p : Product,
      ((fun q => { q with stock := q.stock + sign * guardedSum q.id items }) ∘
        (fun p => { p with stock := p.stock + (-sign) * guardedSum p.id items })) p = p := by
    intro p
    show ({ p with
      stock := p.stock + (-sign) * guardedSum p.id items + sign * guardedSum p.id items }
      : Product) = p
    have harith : p.stock + (-sign) * guardedSum p.id items + sign * guardedSum p.id items
        = p.stock := by ring
    rw [harith]
  calc ps.map ((fun q => { q with stock := q.stock + sign * guardedSum q.id items }) ∘
        (fun p => { p with stock := p.stock + (-sign) * guardedSum p.id items }))
      = ps.map fun p => p := List.map_congr_left fun p _ => hpt p
    _ = ps := List.map_id' ps

/-- An empty database to instantiate witnesses on. -/
def baseState : State :=
  { products := []
    purchases := []
    sales := []
    templates := []
    requests := []
    vendors := []
    distributors := []
    retailers := []
    billedEntities := []
    nextPurchaseId := 1
    nextSaleId := 1
    nextTemplateId := 1
    nextRequestId := 1 }

/-- C1: starting from a state with no transactions, after any sequence of
createPurchase / createSale / deletePurchase / deleteSale operations, the
stock of every product P (any nonzero id) equals its initial stock plus the
sum of quantities of line items referencing P in the currently-existing
purchases, minus the same sum over the currently-existing sales. -/
theorem stock_reflects_existing_transactions (ops : List StockOp) (s : State)
    (hP : s.purchases = []) (hS : s.sales = [])
    (pid : Int) (hpid : pid ≠ 0) (v : Int) (hv : getStock s pid = some v) :
    getStock (runStockOps ops s) pid
      = some (v + (txnSum pid (runStockOps ops s).purchases
          - txnSum pid (runStockOps ops s).sales)) := by
  have hInv : StockInv s := by
    refine ⟨?_, ?_, ?_, ?_⟩ <;> simp [hP, hS]
  have h := getStock_runStockOps ops s hInv pid hpid v hv
  rw [h, netSum, netSum, hP, hS, txnSum_nil]
  congr 1
  ring

/-- A one-product database: product 1 with stock 10, min stock 5. -/
def demoStockState : State :=
  { baseState with
    products := [{ id := 1, stock := 10, minStock := some 5, isActive := true }] }

/-- The §8 scenario: purchase 20 units of product 1, then sell 25. -/
def demoStockOps : List StockOp :=
  [StockOp.createPurchase [{ productId := 1, quantity := 20 }],
   StockOp.createSale [{ productId := 1, quantity := 25 }]]

/-- Witness for C1: product 1 starts at stock 10; a purchase of 20 and a
sale of 25 leave stock 5 = 10 + 20 − 25, matching the net transaction sum. -/
theorem stock_reflects_existing_transactions_witness :
    getStock (runStockOps demoStockOps demoStockState) 1
      = some (10 + (txnSum 1 (runStockOps demoStockOps demoStockState).purchases
          - txnSum 1 (runStockOps demoStockOps demoStockState).sales)) :=
  stock_reflects_existing_transactions demoStockOps demoStockState rfl rfl 1
    (by decide) 10 rfl

/-- C4: deleting an existing purchase (resp. sale) and re-creating one with
identical line items leaves the products table — in particular every
product's stock — unchanged. -/
theorem delete_recreate_stock_roundtrip (s : State) :
    (∀ tid t, s.purchases.find? (fun x => x.id = tid) = some t →
      ((createPurchase t.items (deletePurchase tid s).2).2).products = s.products)
    ∧ (∀ tid t, s.sales.find? (fun x => x.id = tid) = some t →
      ((createSale t.items (deleteSale tid s).2).2).products = s.products) := by
  constructor
  · intro tid t hf
    show applyItems 1 t.items ((deletePurchase tid s).2).products = s.products
    rw [deletePurchase, hf]
    show applyItems 1 t.items (applyItems (-1) t.items s.products) = s.products
    exact applyItems_neg_cancel 1 t.items s.products
  · intro tid t hf
    show applyItems (-1) t.items ((deleteSale tid s).2).products = s.products
    rw [deleteSale, hf]
    show applyItems (-1) t.items (applyItems 1 t.items s.products) = s.products
    have h := applyItems_neg_cancel (-1) t.items s.products
    rw [Int.neg_neg] at h
    exact h

/-- A database holding product 1 (stock 3), one purchase of 7 and one sale
of 2, both referencing product 1. -/
def demoTxnState : State :=
  { baseState with
    products := [{ id := 1, stock := 3, minStock := none, isActive := true }]
    purchases := [{ id := 1, items := [{ productId := 1, quantity := 7 }] }]
    sales := [{ id := 1, items := [{ productId := 1, quantity := 2 }] }]
    nextPurchaseId := 2
    nextSaleId := 2 }

/-- Witness for C4: a concrete state with one purchase and one sale; both
round trips restore the products table. -/
theorem delete_recreate_stock_roundtrip_witness :
    (((createPurchase [({ productId := 1, quantity := 7 } : Item)]
        (deletePurchase 1 demoTxnState).2).2).products = demoTxnState.products)
    ∧ (((createSale [({ productId := 1, quantity := 2 } : Item)]
        (deleteSale 1 demoTxnState).2).2).products = demoTxnState.products) :=
  ⟨(delete_recreate_stock_roundtrip demoTxnState).1 1
      { id := 1, items := [{ productId := 1, quantity := 7 }] } rfl,
   (delete_recreate_stock_roundtrip demoTxnState).2 1
      { id := 1, items := [{ productId := 1, quantity := 2 }] } rfl⟩

/-- C9: deleting a purchase (resp. sale) by an id that resolves to no row
returns `false` and leaves the whole state — rows and all product stocks —
unchanged: the existence check precedes any stock reversal. -/
theorem delete_missing_transaction_noop (s : State) (tid : Int) :
    (s.purchases.find? (fun x => x.id = tid) = none →
      deletePurchase tid s = (false, s))
    ∧ (s.sales.find? (fun x => x.id = tid) = none →
      deleteSale tid s = (false, s)) := by
  constructor
  · intro h
    rw [deletePurchase, h]
  · intro h
    rw [deleteSale, h]

/-- Witness for C9: deleting id 42 from a database whose only purchase and
sale have id 1 fails and changes nothing. -/
theorem delete_missing_transaction_noop_witness :
    deletePurchase 42 demoTxnState = (false, demoTxnState)
    ∧ deleteSale 42 demoTxnState = (false, demoTxnState) :=
  ⟨(delete_missing_transaction_noop demoTxnState 42).1 rfl,
   (delete_missing_transaction_noop demoTxnState 42).2 rfl⟩

/-! ### Lemmas about the default-template exclusivity rule -/

/-- Clearing touches no id. -/
lemma clearDefaults_map_id (ts : List InvoiceTemplate) :
    (clearDefaults ts).map InvoiceTemplate.id = ts.map InvoiceTemplate.id := by
  rw [clearDefaults, List.map_map]
  refine List.map_congr_left fun t _ => ?_
  by_cases h : t.isDefault <;> simp [h]

/-- After the clear step no row is default. -/
lemma clearDefaults_not_default (ts : List InvoiceTemplate) :
    ∀ t ∈ clearDefaults ts, t.isDefault = false := by
  intro t ht
  obtain ⟨u, _, rfl⟩ := List.mem_map.mp ht
  by_cases h : u.isDefault <;> simp [h]

lemma countDefaultRows_eq_zero (ts : List InvoiceTemplate)
    (h : ∀ t ∈ ts, t.isDefault = false) : countDefaultRows ts = 0 := by
  rw [countDefaultRows, List.length_eq_zero]
  exact List.filter_eq_nil_iff.mpr fun t ht => by simp [h t ht]

lemma countDefaultRows_append_singleton (ts : List InvoiceTemplate)
    (row : InvoiceTemplate) :
    countDefaultRows (ts ++ [row])
      = countDefaultRows ts + if row.isDefault then 1 else 0 := by
  rw [countDefaultRows, countDefaultRows, List.filter_append]
  by_cases h : row.isDefault <;> simp [h]

/-- A rowwise transformation that never turns a non-default row default
cannot increase the default count. -/
lemma countDefaultRows_map_le (f : InvoiceTemplate → InvoiceTemplate)
    (hf : ∀ t, (f t).isDefault = true → t.isDefault = true)
    (ts : List InvoiceTemplate) :
    countDefaultRows (ts.map f) ≤ countDefaultRows ts := by
  induction ts with
  | nil => exact Nat.le_refl _
  | cons t ts ih =>
    rw [List.map_cons, countDefaultRows, countDefaultRows, List.filter_cons,
      List.filter_cons]
    by_cases h : (f t).isDefault
    · rw [if_pos (by simpa using h), if_pos (by simpa using hf t h)]
      simpa [countDefaultRows] using ih
    · rw [if_neg (by simpa using h)]
      by_cases h2 : t.isDefault
      · rw [if_pos (by simpa using h2)]
        exact Nat.le_succ_of_le (by simpa [countDefaultRows] using ih)
      · rw [if_neg (by simpa using h2)]
        simpa [countDefaultRows] using ih

/-- In a table with pairwise-distinct ids, at most one row matches a key. -/
lemma length_filter_id_le_one (ts : List InvoiceTemplate) (tid : Int)
    (hnd : (ts.map InvoiceTemplate.id).Nodup) :
    (ts.filter fun t => t.id = tid).length ≤ 1 := by
  induction ts with
  | nil => exact Nat.le_refl _ |>.trans (Nat.zero_le 1)
  | cons t ts ih =>
    rw [List.map_cons, List.nodup_cons] at hnd
    rw [List.filter_cons]
    by_cases h : t.id = tid
    · rw [if_pos (by simpa using h)]
      have hnil : ts.filter (fun t => t.id = tid) = [] := by
        refine List.filter_eq_nil_iff.mpr fun x hx => ?_
        simp only [decide_eq_true_eq]
        intro hxid
        have hx' : x.id ∈ List.map InvoiceTemplate.id ts :=
          List.mem_map_of_mem _ hx
        rw [hxid, ← h] at hx'
        exact hnd.1 hx'
      rw [hnil]
      exact Nat.le_refl 1
    · rw [if_neg (by simpa using h)]
      exact ih hnd.2

/-- Appending a row carrying the next serial template id keeps ids distinct. -/
lemma nodup_ids_append_template (l : List InvoiceTemplate) (row : InvoiceTemplate)
    (n : Int) (hb : ∀ t ∈ l, t.id < n) (hrow : row.id = n)
    (hnd : (l.map InvoiceTemplate.id).Nodup) :
    ((l ++ [row]).map InvoiceTemplate.id).Nodup := by
  rw [List.map_append]
  refine List.nodup_append.mpr ⟨hnd, List.nodup_singleton _, ?_⟩
  intro a ha hb'
  simp only [List.map_cons, List.map_nil, List.mem_singleton] at hb'
  obtain ⟨t, ht, rfl⟩ := List.mem_map.mp ha
  have := hb t ht
  omega

/-- Merging a partial never changes a row's id. -/
lemma mergeTemplate_id (t : InvoiceTemplate) (upd : InsertInvoiceTemplate) :
    (mergeTemplate t upd).id = t.id := rfl

/-- The update's row map preserves the id column. -/
lemma map_merge_ids (l : List InvoiceTemplate) (tid : Int)
    (upd : InsertInvoiceTemplate) :
    ((l.map fun t => if t.id = tid then mergeTemplate t upd else t).map
      InvoiceTemplate.id) = l.map InvoiceTemplate.id := by
  rw [List.map_map]
  refine List.map_congr_left fun t _ => ?_
  by_cases h : t.id = tid <;> simp [h, mergeTemplate_id]

/-- After clearing, setting the default on the rows matching one key yields
as many defaults as there are rows with that key. -/
lemma countDefaultRows_merge_cleared (l : List InvoiceTemplate)
    (h : ∀ t ∈ l, t.isDefault = false) (upd : InsertInvoiceTemplate)
    (hupd : upd.isDefault = some true) (tid : Int) :
    countDefaultRows (l.map fun t => if t.id = tid then mergeTemplate t upd else t)
      = (l.filter fun t => t.id = tid).length := by
  induction l with
  | nil => rfl
  | cons t ts ih =>
    have hts : ∀ x ∈ ts, x.isDefault = false := fun x hx => h x (List.mem_cons_of_mem t hx)
    rw [List.map_cons, countDefaultRows, List.filter_cons, List.filter_cons]
    by_cases hid : t.id = tid
    · rw [if_pos hid]
      have hdef : (mergeTemplate t upd).isDefault = true := by
        rw [mergeTemplate, hupd]
        rfl
      rw [if_pos (by simpa using hdef), if_pos (by simpa using hid)]
      simp only [List.length_cons]
      rw [← countDefaultRows, ih hts]
    · rw [if_neg hid]
      have hdef : t.isDefault = false := h t (List.mem_cons_self t ts)
      rw [if_neg (by simp [hdef]), if_neg (by simpa using hid), ← countDefaultRows,
        ih hts]

/-- Serial-id well-formedness of the template table. -/
def TemplateInv (s : State) : Prop :=
  (∀ t ∈ s.templates, t.id < s.nextTemplateId) ∧
    (s.templates.map InvoiceTemplate.id).Nodup

/-- One create/update step keeps the table well-formed and keeps at most one
default row. -/
lemma templateInv_count_step (s : State) (op : TemplateOp)
    (hInv : TemplateInv s) (hc : countDefaults s ≤ 1) :
    TemplateInv (stepTemplate s op) ∧ countDefaults (stepTemplate s op) ≤ 1 := by
  obtain ⟨hb, hnd⟩ := hInv
  cases op with
  | create tpl =>
    have hids : ((if (tpl.isDefault = some true : Prop) then clearDefaults s.templates
        else s.templates).map InvoiceTemplate.id) = s.templates.map InvoiceTemplate.id := by
      by_cases hd : tpl.isDefault = some true
      · rw [if_pos hd, clearDefaults_map_id]
      · rw [if_neg hd]
    refine ⟨⟨?_, ?_⟩, ?_⟩
    · intro t ht
      show t.id < s.nextTemplateId + 1
      simp only [stepTemplate, createInvoiceTemplate, List.mem_append,
        List.mem_singleton] at ht
      rcases ht with ht | ht
      · have hmem : t.id ∈ s.templates.map InvoiceTemplate.id := by
          rw [← hids]
          exact List.mem_map_of_mem _ ht
        obtain ⟨u, hu, hut⟩ := List.mem_map.mp hmem
        have := hb u hu
        omega
      · subst ht
        show s.nextTemplateId < s.nextTemplateId + 1
        omega
    · show (((if (tpl.isDefault = some true : Prop) then clearDefaults s.templates
        else s.templates) ++ [_]).map InvoiceTemplate.id).Nodup
      refine nodup_ids_append_template _ _ s.nextTemplateId ?_ rfl ?_
      · intro t ht
        have hmem : t.id ∈ s.templates.map InvoiceTemplate.id := by
          rw [← hids]
          exact List.mem_map_of_mem _ ht
        obtain ⟨u, hu, hut⟩ := List.mem_map.mp hmem
        rw [← hut]
        exact hb u hu
      · rw [hids]
        exact hnd
    · show countDefaultRows ((if (tpl.isDefault = some true : Prop) then
        clearDefaults s.templates else s.templates) ++ [_]) ≤ 1
      rw [countDefaultRows_append_singleton]
      by_cases hd : tpl.isDefault = some true
      · rw [if_pos hd,
          countDefaultRows_eq_zero _ (clearDefaults_not_default s.templates)]
        simp [hd]
      · rw [if_neg hd]
        simpa [hd, countDefaults] using hc
  | update tid upd =>
    have hids : ((if (upd.isDefault = some true : Prop) then clearDefaults s.templates
        else s.templates).map InvoiceTemplate.id) = s.templates.map InvoiceTemplate.id := by
      by_cases hd : upd.isDefault = some true
      · rw [if_pos hd, clearDefaults_map_id]
      · rw [if_neg hd]
    refine ⟨⟨?_, ?_⟩, ?_⟩
    · intro t ht
      show t.id < s.nextTemplateId
      have hmem : t.id ∈ s.templates.map InvoiceTemplate.id := by
        have h1 : t.id ∈ ((stepTemplate s (.update tid upd)).templates.map
            InvoiceTemplate.id) := List.mem_map_of_mem _ ht
        rw [show (stepTemplate s (.update tid upd)).templates
            = ((if (upd.isDefault = some true : Prop) then clearDefaults s.templates
              else s.templates).map fun t => if t.id = tid then mergeTemplate t upd
              else t) from rfl, map_merge_ids, hids] at h1
        exact h1
      obtain ⟨u, hu, hut⟩ := List.mem_map.mp hmem
      rw [← hut]
      exact hb u hu
    · show ((((if (upd.isDefault = some true : Prop) then clearDefaults s.templates
        else s.templates).map fun t => if t.id = tid then mergeTemplate t upd
        else t)).map InvoiceTemplate.id).Nodup
      rw [map_merge_ids, hids]
      exact hnd
    · show countDefaultRows ((if (upd.isDefault = some true : Prop) then
        clearDefaults s.templates else s.templates).map
          fun t => if t.id = tid then mergeTemplate t upd else t) ≤ 1
      by_cases hd : upd.isDefault = some true
      · rw [if_pos hd,
          countDefaultRows_merge_cleared _ (clearDefaults_not_default s.templates)
            upd hd tid]
        refine length_filter_id_le_one _ tid ?_
        rw [clearDefaults_map_id]
        exact hnd
      · rw [if_neg hd]
        refine le_trans (countDefaultRows_map_le _ ?_ s.templates) hc
        intro t hdef
        by_cases hid : t.id = tid
        · rw [if_pos hid] at hdef
          rw [mergeTemplate] at hdef
          cases hu : upd.isDefault with
          | none =>
            rw [hu] at hdef
            exact hdef
          | some b =>
            cases b with
            | true => exact absurd hu hd
            | false =>
              rw [hu] at hdef
              simp at hdef
        · rw [if_neg hid] at hdef
          exact hdef

/-- After a clear-then-insert where the inserted row is default, the default
rows are exactly the inserted one. -/
lemma filter_default_clear_append (l : List InvoiceTemplate) (row : InvoiceTemplate)
    (hrow : row.isDefault = true) :
    ((clearDefaults l ++ [row]).filter fun t => t.isDefault) = [row] := by
  rw [List.filter_append]
  have h1 : (clearDefaults l).filter (fun t => t.isDefault) = [] :=
    List.filter_eq_nil_iff.mpr fun t ht => by
      simp [clearDefaults_not_default l t ht]
  rw [h1]
  simp [hrow]

/-- C2: from any well-formed table with at most one default, any sequence of
createInvoiceTemplate / updateInvoiceTemplate calls leaves at most one row
with `isDefault = true`; and creating two default templates in a row leaves
exactly the second one as the default. -/
theorem invoice_default_exclusivity (ops : List TemplateOp) (s : State)
    (hb : ∀ t ∈ s.templates, t.id < s.nextTemplateId)
    (hnd : (s.templates.map InvoiceTemplate.id).Nodup)
    (hc : countDefaults s ≤ 1) :
    countDefaults (runTemplateOps ops s) ≤ 1
    ∧ ∀ tpl₁ tpl₂ : InsertInvoiceTemplate,
        tpl₁.isDefault = some true → tpl₂.isDefault = some true →
        ((runTemplateOps [TemplateOp.create tpl₁, TemplateOp.create tpl₂] s).templates.filter
            fun t => t.isDefault)
          = [{ id := s.nextTemplateId + 1, isDefault := true }] := by
  constructor
  · have hgen : ∀ (ops : List TemplateOp) (s : State), TemplateInv s →
        countDefaults s ≤ 1 → countDefaults (runTemplateOps ops s) ≤ 1 := by
      intro ops
      induction ops with
      | nil =>
        intro s _ hc
        exact hc
      | cons op ops ih =>
        intro s hInv hc
        have hstep := templateInv_count_step s op hInv hc
        rw [runTemplateOps, List.foldl_cons]
        exact ih (stepTemplate s op) hstep.1 hstep.2
    exact hgen ops s ⟨hb, hnd⟩ hc
  · intro tpl₁ tpl₂ h₁ h₂
    show (((createInvoiceTemplate tpl₂ (createInvoiceTemplate tpl₁ s).2).2).templates.filter
      fun t => t.isDefault) = _
    show (((if (tpl₂.isDefault = some true : Prop) then
        clearDefaults (createInvoiceTemplate tpl₁ s).2.templates
        else (createInvoiceTemplate tpl₁ s).2.templates) ++
          [({ id := (createInvoiceTemplate tpl₁ s).2.nextTemplateId, isDefault := decide (tpl₂.isDefault = some true) } : InvoiceTemplate)]).filter
          fun t => t.isDefault) = _
    rw [if_pos h₂]
    have hrow : ({ id := (createInvoiceTemplate tpl₁ s).2.nextTemplateId, isDefault := decide (tpl₂.isDefault = some true) } : InvoiceTemplate)
        = ({ id := s.nextTemplateId + 1, isDefault := true } : InvoiceTemplate) := by
      rw [h₂]
      rfl
    rw [hrow]
    exact filter_default_clear_append _ _ rfl

/-- Witness for C2: from the empty database, one default create keeps the
count at one, and two default creates leave exactly the second (id 2) as
the default row. -/
theorem invoice_default_exclusivity_witness :
    countDefaults (runTemplateOps [TemplateOp.create { isDefault := some true }] baseState) ≤ 1
    ∧ ((runTemplateOps [TemplateOp.create { isDefault := some true },
          TemplateOp.create { isDefault := some true }] baseState).templates.filter
        fun t => t.isDefault)
      = [{ id := 2, isDefault := true }] :=
  ⟨(invoice_default_exclusivity [TemplateOp.create { isDefault := some true }] baseState
      (fun t ht => absurd ht (List.not_mem_nil t)) List.nodup_nil (by decide)).1,
   (invoice_default_exclusivity [TemplateOp.create { isDefault := some true }] baseState
      (fun t ht => absurd ht (List.not_mem_nil t)) List.nodup_nil (by decide)).2
     { isDefault := some true } { isDefault := some true } rfl rfl⟩

/-- Every row surviving the clear step keeps the id of some original row. -/
lemma clearDefaults_id_mem (l : List InvoiceTemplate) (t : InvoiceTemplate)
    (ht : t ∈ clearDefaults l) : ∃ u ∈ l, t.id = u.id := by
  obtain ⟨u, hu, rfl⟩ := List.mem_map.mp ht
  refine ⟨u, hu, ?_⟩
  by_cases h : u.isDefault <;> simp [h]

/-- C10: updating a non-existent template id with `isDefault = true` still
clears every existing default, returns an absent row, and leaves the table
with zero default rows. -/
theorem update_missing_template_clears_defaults (s : State) (tid : Int)
    (upd : InsertInvoiceTemplate) (hdef : upd.isDefault = some true)
    (hmiss : ∀ t ∈ s.templates, t.id ≠ tid) :
    (updateInvoiceTemplate tid upd s).1 = none
    ∧ countDefaults (updateInvoiceTemplate tid upd s).2 = 0 := by
  have hupdated : ((if (upd.isDefault = some true : Prop) then clearDefaults s.templates
      else s.templates).map fun t => if t.id = tid then mergeTemplate t upd else t)
      = clearDefaults s.templates := by
    rw [if_pos hdef]
    calc (clearDefaults s.templates).map
          (fun t => if t.id = tid then mergeTemplate t upd else t)
        = (clearDefaults s.templates).map fun t => t := by
          refine List.map_congr_left fun t ht => ?_
          obtain ⟨u, hu, hid⟩ := clearDefaults_id_mem s.templates t ht
          rw [if_neg (by rw [hid]; exact hmiss u hu)]
      _ = clearDefaults s.templates := List.map_id' _
  constructor
  · show (((if (upd.isDefault = some true : Prop) then clearDefaults s.templates
      else s.templates).map fun t => if t.id = tid then mergeTemplate t upd
        else t).find? fun t => t.id = tid) = none
    rw [hupdated]
    refine List.find?_eq_none.mpr fun t ht => ?_
    obtain ⟨u, hu, hid⟩ := clearDefaults_id_mem s.templates t ht
    simp only [decide_eq_true_eq]
    rw [hid]
    exact hmiss u hu
  · show countDefaultRows ((if (upd.isDefault = some true : Prop) then
      clearDefaults s.templates else s.templates).map
        fun t => if t.id = tid then mergeTemplate t upd else t) = 0
    rw [hupdated]
    exact countDefaultRows_eq_zero _ (clearDefaults_not_default _)

/-- Witness for C10: the table holds a single default template with id 1;
updating missing id 5 with `isDefault = true` returns nothing and leaves no
default row at all. -/
theorem update_missing_template_clears_defaults_witness :
    (updateInvoiceTemplate 5 { isDefault := some true }
        { baseState with templates := [{ id := 1, isDefault := true }], nextTemplateId := 2 }).1 = none
    ∧ countDefaults (updateInvoiceTemplate 5 { isDefault := some true }
        { baseState with templates := [{ id := 1, isDefault := true }], nextTemplateId := 2 }).2 = 0 :=
  update_missing_template_clears_defaults
    { baseState with templates := [{ id := 1, isDefault := true }], nextTemplateId := 2 }
    5 { isDefault := some true } rfl (by decide)

/-! ### Lemmas about the approval workflow -/

/-- The row `UPDATE … RETURNING` hands back is the merged row `find?`
located. -/
lemma find?_map_merge_requests (l : List ApprovalRequest) (rid : Int)
    (upd : ApprovalUpdate) :
    ((l.map fun r => if r.id = rid then mergeRequest r upd else r).find?
        fun r => r.id = rid)
      = (l.find? fun r => r.id = rid).map fun r => mergeRequest r upd := by
  induction l with
  | nil => rfl
  | cons r l ih =>
    by_cases h : r.id = rid
    · simp [List.find?_cons, h, mergeRequest]
    · simp [List.find?_cons, h, ih]

/-- Characterisation of `updateApprovalRequest` on an existing request: the
returned row is the merge, and the side effect fires exactly on
`status = "approved"`. -/
lemma updateApprovalRequest_found (s : State) (rid : Int) (upd : ApprovalUpdate)
    (r : ApprovalRequest) (hr : s.requests.find? (fun x => x.id = rid) = some r) :
    updateApprovalRequest rid upd s
      = (some (mergeRequest r upd),
          if upd.status = some "approved" then
            approveEntity (mergeRequest r upd).entityType (mergeRequest r upd).entityId
              { s with requests := s.requests.map (fun x => if x.id = rid then mergeRequest x upd else x) }
          else
            { s with requests := s.requests.map (fun x => if x.id = rid then mergeRequest x upd else x) }) := by
  have hfind := find?_map_merge_requests s.requests rid upd
  rw [hr] at hfind
  simp only [updateApprovalRequest, hfind, Option.map_some']
  by_cases h1 : upd.status = some "approved"
  · rw [if_pos (Or.inl h1), if_pos h1, if_pos h1]
  · by_cases h2 : upd.status = some "rejected"
    · rw [if_pos (Or.inr h2), if_neg h1, if_neg h1]
    · rw [if_neg (by simp [h1, h2]), if_neg h1]

/-- The `"vendor"` arm of the switch. -/
lemma approveEntity_vendor (eid : Int) (s : State) :
    approveEntity "vendor" eid s
      = { s with vendors := s.vendors.map (fun v => if v.id = eid then { v with isApproved := true } else v) } := rfl

/-- A tag outside the four switch cases falls through: no table changes. -/
lemma approveEntity_unknown (et : String) (eid : Int) (s : State)
    (h1 : et ≠ "vendor") (h2 : et ≠ "distributor") (h3 : et ≠ "retailer")
    (h4 : et ≠ "billedEntity") :
    approveEntity et eid s = s := by
  unfold approveEntity
  split <;> simp_all

/-- C5: deciding an approval request whose entityType is "vendor" as approved
sets `isApproved` on exactly the vendor with the request's entityId (every
other vendor row is mapped to itself); deciding it as rejected leaves every
partner-entity table unchanged. -/
theorem approve_vendor_sets_exactly_target (s : State) (rid : Int)
    (r : ApprovalRequest) (hr : s.requests.find? (fun x => x.id = rid) = some r)
    (hv : r.entityType = "vendor") :
    ((updateApprovalRequest rid { status := some "approved" } s).2).vendors
      = s.vendors.map (fun v => if v.id = r.entityId then { v with isApproved := true } else v)
    ∧ ((updateApprovalRequest rid { status := some "rejected" } s).2).vendors = s.vendors
    ∧ ((updateApprovalRequest rid { status := some "rejected" } s).2).distributors = s.distributors
    ∧ ((updateApprovalRequest rid { status := some "rejected" } s).2).retailers = s.retailers
    ∧ ((updateApprovalRequest rid { status := some "rejected" } s).2).billedEntities = s.billedEntities := by
  have ha := updateApprovalRequest_found s rid { status := some "approved" } r hr
  have hb := updateApprovalRequest_found s rid { status := some "rejected" } r hr
  refine ⟨?_, ?_, ?_, ?_, ?_⟩
  · rw [ha, if_pos rfl]
    show (approveEntity r.entityType r.entityId { s with requests := s.requests.map (fun x => if x.id = rid then mergeRequest x { status := some "approved" } else x) }).vendors = _
    rw [hv, approveEntity_vendor]
  · rw [hb, if_neg (by decide)]
  · rw [hb, if_neg (by decide)]
  · rw [hb, if_neg (by decide)]
  · rw [hb, if_neg (by decide)]

/-- A pending vendor approval request (id 1, targeting vendor 2) in a
database with two unapproved vendors. -/
def demoVendorState : State :=
  { baseState with
    requests := [{ id := 1, entityType := "vendor", entityId := 2, requestedBy := 1, status := "pending" }]
    nextRequestId := 2
    vendors := [{ id := 2, isApproved := false }, { id := 3, isApproved := false }] }

/-- Witness for C5 at the concrete two-vendor database. -/
theorem approve_vendor_sets_exactly_target_witness :
    ((updateApprovalRequest 1 { status := some "approved" } demoVendorState).2).vendors
      = demoVendorState.vendors.map (fun v => if v.id = 2 then { v with isApproved := true } else v)
    ∧ ((updateApprovalRequest 1 { status := some "rejected" } demoVendorState).2).vendors = demoVendorState.vendors
    ∧ ((updateApprovalRequest 1 { status := some "rejected" } demoVendorState).2).distributors = demoVendorState.distributors
    ∧ ((updateApprovalRequest 1 { status := some "rejected" } demoVendorState).2).retailers = demoVendorState.retailers
    ∧ ((updateApprovalRequest 1 { status := some "rejected" } demoVendorState).2).billedEntities = demoVendorState.billedEntities :=
  approve_vendor_sets_exactly_target demoVendorState 1
    { id := 1, entityType := "vendor", entityId := 2, requestedBy := 1, status := "pending" }
    rfl rfl

/-- C7: deciding a request whose entityType is outside the four known tags
as approved still updates the request's status to "approved" and returns the
updated row (no error), while flipping no entity table at all. -/
theorem approve_unknown_entity_type_ignored (s : State) (rid : Int)
    (r : ApprovalRequest) (hr : s.requests.find? (fun x => x.id = rid) = some r)
    (h1 : r.entityType ≠ "vendor") (h2 : r.entityType ≠ "distributor")
    (h3 : r.entityType ≠ "retailer") (h4 : r.entityType ≠ "billedEntity") :
    (updateApprovalRequest rid { status := some "approved" } s).1
      = some { r with status := "approved" }
    ∧ ((updateApprovalRequest rid { status := some "approved" } s).2).vendors = s.vendors
    ∧ ((updateApprovalRequest rid { status := some "approved" } s).2).distributors = s.distributors
    ∧ ((updateApprovalRequest rid { status := some "approved" } s).2).retailers = s.retailers
    ∧ ((updateApprovalRequest rid { status := some "approved" } s).2).billedEntities = s.billedEntities
    ∧ ((updateApprovalRequest rid { status := some "approved" } s).2).requests
      = s.requests.map (fun x => if x.id = rid then mergeRequest x { status := some "approved" } else x) := by
  have ha := updateApprovalRequest_found s rid { status := some "approved" } r hr
  have hskip : approveEntity r.entityType r.entityId
      { s with requests := s.requests.map (fun x => if x.id = rid then mergeRequest x { status := some "approved" } else x) }
      = { s with requests := s.requests.map (fun x => if x.id = rid then mergeRequest x { status := some "approved" } else x) } :=
    approveEntity_unknown _ _ _ h1 h2 h3 h4
  refine ⟨?_, ?_, ?_, ?_, ?_, ?_⟩
  · rw [ha]
    rfl
  · rw [ha, if_pos rfl]
    show (approveEntity r.entityType r.entityId { s with requests := s.requests.map (fun x => if x.id = rid then mergeRequest x { status := some "approved" } else x) }).vendors = s.vendors
    rw [hskip]
  · rw [ha, if_pos rfl]
    show (approveEntity r.entityType r.entityId { s with requests := s.requests.map (fun x => if x.id = rid then mergeRequest x { status := some "approved" } else x) }).distributors = s.distributors
    rw [hskip]
  · rw [ha, if_pos rfl]
    show (approveEntity r.entityType r.entityId { s with requests := s.requests.map (fun x => if x.id = rid then mergeRequest x { status := some "approved" } else x) }).retailers = s.retailers
    rw [hskip]
  · rw [ha, if_pos rfl]
    show (approveEntity r.entityType r.entityId { s with requests := s.requests.map (fun x => if x.id = rid then mergeRequest x { status := some "approved" } else x) }).billedEntities = s.billedEntities
    rw [hskip]
  · rw [ha, if_pos rfl]
    show (approveEntity r.entityType r.entityId { s with requests := s.requests.map (fun x => if x.id = rid then mergeRequest x { status := some "approved" } else x) }).requests
      = s.requests.map (fun x => if x.id = rid then mergeRequest x { status := some "approved" } else x)
    rw [hskip]

/-- A pending approval request with the unknown tag "supplier" (the route
`POST /suppliers` creates exactly these), plus one row in every entity
table. -/
def demoSupplierState : State :=
  { baseState with
    requests := [{ id := 1, entityType := "supplier", entityId := 2, requestedBy := 1, status := "pending" }]
    nextRequestId := 2
    vendors := [{ id := 2, isApproved := false }]
    distributors := [{ id := 2, isApproved := false }]
    retailers := [{ id := 2, isApproved := false }]
    billedEntities := [{ id := 2, isApproved := false }] }

/-- Witness for C7: approving the "supplier" request updates its status and
flips no flag in any of the four entity tables. -/
theorem approve_unknown_entity_type_ignored_witness :
    (updateApprovalRequest 1 { status := some "approved" } demoSupplierState).1
      = some { id := 1, entityType := "supplier", entityId := 2, requestedBy := 1, status := "approved" }
    ∧ ((updateApprovalRequest 1 { status := some "approved" } demoSupplierState).2).vendors = demoSupplierState.vendors
    ∧ ((updateApprovalRequest 1 { status := some "approved" } demoSupplierState).2).distributors = demoSupplierState.distributors
    ∧ ((updateApprovalRequest 1 { status := some "approved" } demoSupplierState).2).retailers = demoSupplierState.retailers
    ∧ ((updateApprovalRequest 1 { status := some "approved" } demoSupplierState).2).billedEntities = demoSupplierState.billedEntities
    ∧ ((updateApprovalRequest 1 { status := some "approved" } demoSupplierState).2).requests
      = demoSupplierState.requests.map (fun x => if x.id = 1 then mergeRequest x { status := some "approved" } else x) :=
  approve_unknown_entity_type_ignored demoSupplierState 1
    { id := 1, entityType := "supplier", entityId := 2, requestedBy := 1, status := "pending" }
    rfl (by decide) (by decide) (by decide) (by decide)

/-- C6: `createApprovalRequest` always persists `status = "pending"`
whatever status the raw caller record carries, and the zod insert schema's
parse output is independent of any caller-supplied status key. -/
theorem create_approval_request_always_pending (raw : RawApprovalInput) (s : State) :
    ((createApprovalRequest raw s).1).status = "pending"
    ∧ ((createApprovalRequest raw s).2).requests
      = s.requests ++ [(createApprovalRequest raw s).1]
    ∧ ∀ st : Option String,
        insertApprovalRequestSchemaParse { raw with status := st }
          = insertApprovalRequestSchemaParse raw :=
  ⟨rfl, rfl, fun _ => rfl⟩

/-- A request already decided `approved` (vendor 1 already flagged). -/
def demoTerminalState : State :=
  { baseState with
    requests := [{ id := 1, entityType := "vendor", entityId := 1, requestedBy := 1, status := "approved" }]
    nextRequestId := 2
    vendors := [{ id := 1, isApproved := true }] }

/-- C3 fails on the code: `updateApprovalRequest` never consults the stored
status, so a request already `"approved"` is simply overwritten by a decide
call with status `"rejected"` — the terminal state does have an outgoing
transition.  Evaluation at the failing input: the stored status is
`"approved"` before the call and `"rejected"` after it. -/
theorem decide_overwrites_terminal_status :
    (demoTerminalState.requests.find? (fun r => r.id = 1)).map ApprovalRequest.status
      = some "approved"
    ∧ ((updateApprovalRequest 1 { status := some "rejected" } demoTerminalState).1).map
        ApprovalRequest.status = some "rejected"
    ∧ (((updateApprovalRequest 1 { status := some "rejected" } demoTerminalState).2).requests.find?
        (fun r => r.id = 1)).map ApprovalRequest.status = some "rejected" :=
  ⟨rfl, rfl, rfl⟩

/-- One active product with stock 5 above zero but below its own min stock
of 10: the two readings of `getLowStockProducts(0)` disagree on it. -/
def demoLowStockState : State :=
  { baseState with
    products := [{ id := 1, stock := 5, minStock := some 10, isActive := true }] }

/-- Counterexample to C8 as stated: with threshold 0 supplied, the spec's
reading returns the active products with stock ≤ 0 (here none), but the code
— whose `if (threshold)` treats 0 as falsy — runs the min-stock query and
returns product 1. -/
theorem low_stock_zero_threshold_counterexample :
    getLowStockProducts (some 0) demoLowStockState
      ≠ getLowStockProductsClaim (some 0) demoLowStockState := by
  decide

/-- C8 amended: a NONZERO supplied threshold selects exactly the active
products with stock ≤ threshold, and an omitted threshold selects the active
products at or below their own min stock, as the claim says; but a supplied
threshold of 0 is JS-falsy and behaves like an omitted one. -/
theorem low_stock_truthy_threshold (s : State) (t : Int) (ht : t ≠ 0) :
    getLowStockProducts (some t) s = getLowStockProductsClaim (some t) s
    ∧ getLowStockProducts none s = getLowStockProductsClaim none s
    ∧ getLowStockProducts (some 0) s = getLowStockProductsClaim none s := by
  refine ⟨?_, rfl, ?_⟩
  · show (if t ≠ 0 then s.products.filter (fun p => p.isActive ∧ p.stock ≤ t)
      else s.products.filter (fun p => p.isActive ∧ belowMinStock p))
      = s.products.filter (fun p => p.isActive ∧ p.stock ≤ t)
    rw [if_pos ht]
  · show (if (0 : Int) ≠ 0 then s.products.filter (fun p => p.isActive ∧ p.stock ≤ 0)
      else s.products.filter (fun p => p.isActive ∧ belowMinStock p))
      = s.products.filter (fun p => p.isActive ∧ belowMinStock p)
    rw [if_neg (by decide)]

/-- Witness for the amended C8 at threshold 3 on the demo product table. -/
theorem low_stock_truthy_threshold_witness :
    getLowStockProducts (some 3) demoLowStockState
      = getLowStockProductsClaim (some 3) demoLowStockState
    ∧ getLowStockProducts none demoLowStockState
      = getLowStockProductsClaim none demoLowStockState
    ∧ getLowStockProducts (some 0) demoLowStockState
      = getLowStockProductsClaim none demoLowStockState :=
  low_stock_truthy_threshold demoLowStockState 3 (by decide)
